import Mathlib

/-!
Verification of the radar-visualization repository's core logic:
the radar-local → WGS84 coordinate transform (`radarToWGS84`), the
alternate transform variant (`radarRelativeToWorld`), and the vehicle
track cache maintained by the socket message handler and the periodic
cleanup interval, all from `src/components/Resium.tsx` and its
sibling component variants.
-/

namespace RadarScene

open Real

/-- Shallow embedding of `radarToWGS84` (Resium.tsx lines 79–105):
converts a radar-local offset `(xpos, ypos)` in meters, given the
detector's latitude/longitude (degrees) and direction (degrees), into
WGS84 `(latitude, longitude)` in degrees, via a spherical-earth
approximation with radius 6371000 m. The floating-point arithmetic of
the source is modelled over the reals. -/
noncomputable def radarToWGS84 (radarLat radarLon radarDirection xpos ypos : ℝ) : ℝ × ℝ :=
  let R : ℝ := 6371000
  let dirRad := radarDirection * π / 180
  let rotatedX := xpos * Real.cos dirRad - ypos * Real.sin dirRad
  let rotatedY := xpos * Real.sin dirRad + ypos * Real.cos dirRad
  let lat1 := radarLat * π / 180
  let dLat := rotatedY / R
  let dLon := rotatedX / (R * Real.cos lat1)
  let objLat := lat1 + dLat
  let objLon := radarLon * π / 180 + dLon
  (objLat * 180 / π, objLon * 180 / π)

/-- The (east, north) displacement pair embedded in `radarToWGS84`:
`rotatedX` feeds `dLon` (east), `rotatedY` feeds `dLat` (north). -/
noncomputable def dispRadarToWGS84 (dirRad xpos ypos : ℝ) : ℝ × ℝ :=
  (xpos * Real.cos dirRad - ypos * Real.sin dirRad,
   xpos * Real.sin dirRad + ypos * Real.cos dirRad)

/-- The (east, north) displacement pair embedded in `radarRelativeToWorld`
(Resium.tsx second variant, lines 473–502): `east = x·sin θ + y·cos θ`,
`north = x·cos θ − y·sin θ`. -/
noncomputable def dispRadarRelativeToWorld (heading xpos ypos : ℝ) : ℝ × ℝ :=
  (xpos * Real.sin heading + ypos * Real.cos heading,
   xpos * Real.cos heading - ypos * Real.sin heading)

/-- Sanity link: `radarToWGS84` is exactly the spherical-approximation update
applied to the displacement pair `dispRadarToWGS84`. -/
theorem radarToWGS84_eq_disp (lat lon dir x y : ℝ) :
    radarToWGS84 lat lon dir x y =
      ((lat * π / 180 + (dispRadarToWGS84 (dir * π / 180) x y).2 / 6371000) * 180 / π,
       (lon * π / 180 +
        (dispRadarToWGS84 (dir * π / 180) x y).1 /
          (6371000 * Real.cos (lat * π / 180))) * 180 / π) := by
  simp [radarToWGS84, dispRadarToWGS84]

/-- Evaluation of `radarToWGS84` at detector direction 0. -/
theorem radarToWGS84_dir_zero (lat lon x y : ℝ) :
    radarToWGS84 lat lon 0 x y =
      ((lat * π / 180 + y / 6371000) * 180 / π,
       (lon * π / 180 + x / (6371000 * Real.cos (lat * π / 180))) * 180 / π) := by
  simp [radarToWGS84]

/-- Evaluation of `radarToWGS84` at detector direction 90. -/
theorem radarToWGS84_dir_ninety (lat lon x y : ℝ) :
    radarToWGS84 lat lon 90 x y =
      ((lat * π / 180 + x / 6371000) * 180 / π,
       (lon * π / 180 + (-y) / (6371000 * Real.cos (lat * π / 180))) * 180 / π) := by
  have h90 : (90 : ℝ) * π / 180 = π / 2 := by ring
  simp [radarToWGS84, h90]

/-- C4: transforming the zero local offset returns exactly the detector's
own latitude and longitude, for every detector position and orientation. -/
theorem C4_zero_offset_identity (lat lon dir : ℝ) :
    radarToWGS84 lat lon dir 0 0 = (lat, lon) := by
  have hpi : (π : ℝ) ≠ 0 := Real.pi_ne_zero
  simp only [radarToWGS84, zero_mul, mul_zero, sub_zero, add_zero, zero_sub, neg_zero,
    zero_div, zero_add, Prod.mk.injEq]
  constructor <;> field_simp

/-- C3: the two transform variants embed different (east, north) displacement
functions; at direction 0 with offset (1, 0), `radarToWGS84` produces the pair
(1, 0) while `radarRelativeToWorld` produces (0, 1), so the two embedded
displacement functions are not equal. -/
theorem C3_displacement_conventions_differ :
    (∃ dir x y : ℝ, dispRadarToWGS84 dir x y ≠ dispRadarRelativeToWorld dir x y) ∧
    dispRadarToWGS84 ≠ dispRadarRelativeToWorld := by
  have h : dispRadarToWGS84 0 1 0 ≠ dispRadarRelativeToWorld 0 1 0 := by
    simp [dispRadarToWGS84, dispRadarRelativeToWorld]
  refine ⟨⟨0, 1, 0, h⟩, fun he => h (by rw [he])⟩

/-- The cosine of the example detector latitude 35.8358°, in radians, is
positive (the latitude is strictly between −90° and 90°). -/
theorem cos_exLat_pos : 0 < Real.cos ((35.8358 : ℝ) * π / 180) := by
  have hpi : (0 : ℝ) < π := Real.pi_pos
  apply Real.cos_pos_of_mem_Ioo
  constructor
  · nlinarith
  · nlinarith

/-- C1 (amended): with detector orientation 0°, the forward offset (x, 0)
maps to a point due EAST of the detector: latitude unchanged, longitude
strictly increased, and the implied eastward ground distance
Δlon·R·cos(lat) equals x exactly in the spherical approximation. -/
theorem C1_dir_zero_maps_due_east (lat lon x : ℝ)
    (hcos : 0 < Real.cos (lat * π / 180)) (hx : 0 < x) :
    (radarToWGS84 lat lon 0 x 0).1 = lat ∧
    lon < (radarToWGS84 lat lon 0 x 0).2 ∧
    ((radarToWGS84 lat lon 0 x 0).2 - lon) * π / 180 *
      (6371000 * Real.cos (lat * π / 180)) = x := by
  have hpi : (0 : ℝ) < π := Real.pi_pos
  have hc : Real.cos (lat * π / 180) ≠ 0 := ne_of_gt hcos
  rw [radarToWGS84_dir_zero]
  have hd : 0 < x / (6371000 * Real.cos (lat * π / 180)) := by positivity
  have key : (lon * π / 180 + x / (6371000 * Real.cos (lat * π / 180))) * 180 / π
      = lon + x / (6371000 * Real.cos (lat * π / 180)) * (180 / π) := by
    field_simp
    ring
  refine ⟨by field_simp, ?_, ?_⟩
  · simp only [key]
    nlinarith [mul_pos hd (div_pos (by norm_num : (0 : ℝ) < 180) hpi)]
  · simp only [key]
    field_simp
    ring

/-- C1 counterexample: for the example detector (lat 35.8358, lng 129.2844,
direction 0) and offset (xpos = 100, ypos = 0), `radarToWGS84` leaves the
latitude exactly unchanged (it is NOT increased to ≈35.8367) and strictly
increases the longitude (it is NOT unchanged at 129.2844): the point lies
due east, not due north. -/
theorem C1_counterexample :
    (radarToWGS84 35.8358 129.2844 0 100 0).1 = 35.8358 ∧
    129.2844 < (radarToWGS84 35.8358 129.2844 0 100 0).2 := by
  have hpi : (0 : ℝ) < π := Real.pi_pos
  have hcos := cos_exLat_pos
  have hc : Real.cos ((35.8358 : ℝ) * π / 180) ≠ 0 := ne_of_gt hcos
  rw [radarToWGS84_dir_zero]
  constructor
  · field_simp
  · have hd : 0 < (100 : ℝ) / (6371000 * Real.cos ((35.8358 : ℝ) * π / 180)) := by
      positivity
    have key : ((129.2844 : ℝ) * π / 180 +
          100 / (6371000 * Real.cos ((35.8358 : ℝ) * π / 180))) * 180 / π
        = 129.2844 + 100 / (6371000 * Real.cos ((35.8358 : ℝ) * π / 180)) * (180 / π) := by
      field_simp
      ring
    rw [key]
    nlinarith [mul_pos hd (div_pos (by norm_num : (0 : ℝ) < 180) hpi)]

/-- C1 witness: the amended theorem instantiated at the example detector
(lat 35.8358, lng 129.2844, direction 0) with forward offset 100 m. -/
theorem C1_witness :
    (radarToWGS84 35.8358 129.2844 0 100 0).1 = 35.8358 ∧
    129.2844 < (radarToWGS84 35.8358 129.2844 0 100 0).2 ∧
    ((radarToWGS84 35.8358 129.2844 0 100 0).2 - 129.2844) * π / 180 *
      (6371000 * Real.cos ((35.8358 : ℝ) * π / 180)) = 100 :=
  C1_dir_zero_maps_due_east 35.8358 129.2844 100 cos_exLat_pos (by norm_num)

/-- C2 (amended): with detector orientation 90°, the forward offset (x, 0)
maps to a point due NORTH of the detector: longitude unchanged, latitude
strictly increased, and the implied northward ground distance Δlat·R equals
x exactly in the spherical approximation. -/
theorem C2_dir_ninety_maps_due_north (lat lon x : ℝ)
    (_hcos : Real.cos (lat * π / 180) ≠ 0) (hx : 0 < x) :
    (radarToWGS84 lat lon 90 x 0).2 = lon ∧
    lat < (radarToWGS84 lat lon 90 x 0).1 ∧
    ((radarToWGS84 lat lon 90 x 0).1 - lat) * π / 180 * 6371000 = x := by
  have hpi : (0 : ℝ) < π := Real.pi_pos
  rw [radarToWGS84_dir_ninety]
  have key : (lat * π / 180 + x / 6371000) * 180 / π
      = lat + x / 6371000 * (180 / π) := by
    field_simp
    ring
  refine ⟨by field_simp, ?_, ?_⟩
  · simp only [key]
    nlinarith [mul_pos (by positivity : (0 : ℝ) < x / 6371000)
      (div_pos (by norm_num : (0 : ℝ) < 180) hpi)]
  · simp only [key]
    field_simp
    ring

/-- C2 counterexample: for a detector at (lat 35.8358, lng 129.2844) with
direction 90 and offset (xpos = 100, ypos = 0), `radarToWGS84` leaves the
longitude exactly unchanged (NOT increased) and strictly increases the
latitude (NOT unchanged): the point lies due north, not due east. -/
theorem C2_counterexample :
    (radarToWGS84 35.8358 129.2844 90 100 0).2 = 129.2844 ∧
    35.8358 < (radarToWGS84 35.8358 129.2844 90 100 0).1 := by
  have hpi : (0 : ℝ) < π := Real.pi_pos
  have hc : Real.cos ((35.8358 : ℝ) * π / 180) ≠ 0 := ne_of_gt cos_exLat_pos
  rw [radarToWGS84_dir_ninety]
  constructor
  · field_simp
  · have key : ((35.8358 : ℝ) * π / 180 + 100 / 6371000) * 180 / π
        = 35.8358 + (100 : ℝ) / 6371000 * (180 / π) := by
      field_simp
      ring
    rw [key]
    nlinarith [mul_pos (by norm_num : (0 : ℝ) < 100 / 6371000)
      (div_pos (by norm_num : (0 : ℝ) < 180) hpi)]

/-- C2 witness: the amended theorem instantiated at the example detector
latitude/longitude with direction 90 and forward offset 100 m. -/
theorem C2_witness :
    (radarToWGS84 35.8358 129.2844 90 100 0).2 = 129.2844 ∧
    35.8358 < (radarToWGS84 35.8358 129.2844 90 100 0).1 ∧
    ((radarToWGS84 35.8358 129.2844 90 100 0).1 - 35.8358) * π / 180 * 6371000 = 100 :=
  C2_dir_ninety_maps_due_north 35.8358 129.2844 100 (ne_of_gt cos_exLat_pos) (by norm_num)

/-- Runtime object state tracked in the scene (`VehicleState` in
Resium.tsx lines 64–70). The `position` field models the WGS84
(latitude, longitude) pair that the source passes to
`Cesium.Cartesian3.fromDegrees`; the Cartesian conversion itself belongs to
the external engine. Timestamps are milliseconds as integers. -/
structure VehicleState where
  id : String
  position : ℝ × ℝ
  heading : ℝ
  type : ℤ
  lastUpdate : ℤ

/-- The track cache: the `Map<string, VehicleState>` held in the `vehicles`
React state, modelled as an insertion-ordered association list with
JavaScript `Map` semantics. -/
abbrev Cache := List (String × VehicleState)

/-- JavaScript `Map.has`-style key test, used to express `Map.set`. -/
def containsKey (m : Cache) (k : String) : Bool :=
  m.any (fun p => p.1 == k)

/-- JavaScript `Map.set`: when the key is present the value is overwritten
in place (insertion order kept), otherwise the binding is appended. This is
the per-object insertion `next.set(id, ...)` of the message handler. -/
def mapSet (m : Cache) (k : String) (v : VehicleState) : Cache :=
  if containsKey m k then m.map (fun p => if p.1 == k then (k, v) else p)
  else m ++ [(k, v)]

/-- JavaScript `Map.get`. -/
def mapGet (m : Cache) (k : String) : Option VehicleState :=
  (m.find? (fun p => p.1 == k)).map (fun p => p.2)

/-- The keys of the cache, in insertion order. -/
def keys (m : Cache) : List String := m.map (fun p => p.1)

/-- Shallow embedding of the body of the cleanup interval (Resium.tsx lines
177–197; the same loop with a 5000 ms timeout sits in
`src/unnamed/part_003` lines 110–129): copy the map, delete every entry
with `now - lastUpdate > timeout` while recording whether any deletion
happened, and hand back the copy when something changed, the previous map
otherwise. -/
def sweep (m : Cache) (now timeout : ℤ) : Cache × Bool :=
  let next := m.filter (fun p => !(decide (now - p.2.lastUpdate > timeout)))
  let changed := m.any (fun p => decide (now - p.2.lastUpdate > timeout))
  (if changed then next else m, changed)

/-- One detection inside an observation message. -/
structure RadarObj where
  object_id : ℤ
  xpos : ℝ
  ypos : ℝ
  heading : Option ℝ
  object_type : ℤ

/-- A parsed `new_radar_data` observation message. -/
structure RadarMsg where
  road_id : ℤ
  data : List RadarObj

/-- The per-road detector configuration stored in `detectorMap`
(Resium.tsx lines 200–215). -/
structure DetectorInfo where
  lat : ℝ
  lng : ℝ
  direction_deg : ℝ

/-- `detectorMap.get(Number(msg.road_id))`. -/
def detectorGet (dm : List (ℤ × DetectorInfo)) (roadId : ℤ) : Option DetectorInfo :=
  (dm.find? (fun p => p.1 == roadId)).map (fun p => p.2)

/-- JavaScript `%` on numbers: remainder carrying the sign of the dividend,
`x % y = x - y * trunc (x / y)` (truncation toward zero). -/
noncomputable def jsMod (x y : ℝ) : ℝ :=
  if 0 ≤ x / y then x - y * (⌊x / y⌋ : ℤ) else x - y * (⌈x / y⌉ : ℤ)

/-- The per-object body of the `new_radar_data` handler (Resium.tsx lines
251–277): build the track id `road_id-object_id`, convert the local offset
to WGS84, combine detector direction with the reported heading
(`obj.heading || 0`) modulo 360, and upsert the entry stamped with the
current time. -/
noncomputable def handleObj (roadId : ℤ) (radar : DetectorInfo) (now : ℤ)
    (acc : Cache) (obj : RadarObj) : Cache :=
  let id := toString roadId ++ "-" ++ toString obj.object_id
  let wgs84 := radarToWGS84 radar.lat radar.lng radar.direction_deg obj.xpos obj.ypos
  let heading := jsMod (radar.direction_deg + obj.heading.getD 0) 360
  mapSet acc id ⟨id, (wgs84.1, wgs84.2), heading, obj.object_type, now⟩

/-- The `new_radar_data` handler after JSON parsing (Resium.tsx lines
245–281): look up the detector for the message's road id; when it is
unknown the cache is returned untouched, otherwise every detection in
`msg.data` is upserted in order. -/
noncomputable def handleRadarMsg (dm : List (ℤ × DetectorInfo)) (msg : RadarMsg)
    (now : ℤ) (cache : Cache) : Cache :=
  match detectorGet dm msg.road_id with
  | none => cache
  | some radar => msg.data.foldl (handleObj msg.road_id radar now) cache

/-- The full `new_radar_data` handler (Resium.tsx lines 236–282): the raw
string payload is parsed first, and a parse failure returns the cache
unchanged (the source catches the exception and returns early). The
platform `JSON.parse` is not part of the repository, so it is passed in as
an abstract `String → Option RadarMsg` whose `none` results are exactly the
strings on which `JSON.parse` throws. -/
noncomputable def handleRaw (parseJson : String → Option RadarMsg)
    (dm : List (ℤ × DetectorInfo)) (raw : String) (now : ℤ) (cache : Cache) : Cache :=
  match parseJson raw with
  | none => cache
  | some msg => handleRadarMsg dm msg now cache

/-- A key is contained in the cache exactly when it is one of the keys. -/
theorem containsKey_iff_mem_keys (m : Cache) (k : String) :
    containsKey m k = true ↔ k ∈ keys m := by
  induction m with
  | nil => simp [containsKey, keys]
  | cons p t ih =>
    have hkc : keys (p :: t) = p.1 :: keys t := rfl
    rw [hkc]
    simp only [containsKey, List.any_cons, Bool.or_eq_true, beq_iff_eq,
      List.mem_cons] at ih ⊢
    constructor
    · rintro (h | h)
      · exact Or.inl h.symm
      · exact Or.inr (ih.mp h)
    · rintro (h | h)
      · exact Or.inl h.symm
      · exact Or.inr (ih.mpr h)

/-- When no entry of the cache carries key `k`, the in-place replacement
pass of `mapSet` is the identity. -/
theorem replace_eq_self_of_not_contains (m : Cache) (k : String) (v : VehicleState)
    (h : containsKey m k = false) :
    m.map (fun p => if p.1 == k then (k, v) else p) = m := by
  induction m with
  | nil => rfl
  | cons p t ih =>
    simp only [containsKey, List.any_cons, Bool.or_eq_false_iff] at h
    simp only [List.map_cons, h.1, Bool.false_eq_true, if_false]
    rw [ih h.2]

/-- When no entry of the cache carries key `k`, filtering for `k` gives the
empty list. -/
theorem filter_eq_nil_of_not_contains (m : Cache) (k : String)
    (h : containsKey m k = false) :
    m.filter (fun p => p.1 == k) = [] := by
  induction m with
  | nil => rfl
  | cons p t ih =>
    simp only [containsKey, List.any_cons, Bool.or_eq_false_iff] at h
    simp only [List.filter_cons, h.1, Bool.false_eq_true, if_false]
    exact ih h.2

/-- The replacement pass of `mapSet` keeps the key sequence unchanged. -/
theorem keys_replace (m : Cache) (k : String) (v : VehicleState) :
    keys (m.map (fun p => if p.1 == k then (k, v) else p)) = keys m := by
  induction m with
  | nil => rfl
  | cons p t ih =>
    by_cases hp : p.1 = k
    · simp only [keys, List.map_cons] at ih ⊢
      rw [ih]
      simp [hp]
    · simp only [keys, List.map_cons] at ih ⊢
      rw [ih]
      simp [hp]

/-- After a replacement pass for a key that is present, looking that key up
returns the new value. -/
theorem mapGet_replace (m : Cache) (k : String) (v : VehicleState)
    (h : containsKey m k = true) :
    mapGet (m.map (fun p => if p.1 == k then (k, v) else p)) k = some v := by
  induction m with
  | nil => simp [containsKey] at h
  | cons p t ih =>
    by_cases hp : p.1 = k
    · simp [mapGet, hp]
    · have ht : containsKey t k = true := by
        simpa [containsKey, List.any_cons, hp] using h
      simpa [mapGet, hp] using ih ht

/-- `mapSet` keeps the key sequence duplicate-free. -/
theorem keys_mapSet_nodup (m : Cache) (k : String) (v : VehicleState)
    (hnd : (keys m).Nodup) : (keys (mapSet m k v)).Nodup := by
  by_cases hc : containsKey m k
  · rw [mapSet, if_pos hc, keys_replace]
    exact hnd
  · rw [mapSet, if_neg hc]
    have hk : k ∉ keys m := fun hmem =>
      hc ((containsKey_iff_mem_keys m k).mpr hmem)
    have hkeys : keys (m ++ [(k, v)]) = keys m ++ k :: [] := by
      simp [keys]
    rw [hkeys, List.nodup_middle, List.append_nil]
    exact List.nodup_cons.mpr ⟨hk, hnd⟩

/-- On a duplicate-free cache containing key `k`, the replacement pass for
`k` leaves exactly the single binding `(k, v)` under that key. -/
theorem filter_replace (m : Cache) (k : String) (v : VehicleState) :
    (keys m).Nodup → containsKey m k = true →
    (m.map (fun p => if p.1 == k then (k, v) else p)).filter
        (fun p => p.1 == k) = [(k, v)] := by
  induction m with
  | nil => intro _ hc; simp [containsKey] at hc
  | cons p t ih =>
    intro hnd hc
    have hkc : keys (p :: t) = p.1 :: keys t := rfl
    rw [hkc, List.nodup_cons] at hnd
    obtain ⟨hnd1, hnd2⟩ := hnd
    by_cases hp : p.1 = k
    · have hne : ¬containsKey t k = true := fun hbc =>
        (hp ▸ hnd1) ((containsKey_iff_mem_keys t k).mp hbc)
      have htc : containsKey t k = false := by simpa using hne
      have hpb : (p.1 == k) = true := by simp [hp]
      simp only [List.map_cons, hpb, if_true, List.filter_cons]
      rw [replace_eq_self_of_not_contains t k v htc,
        filter_eq_nil_of_not_contains t k htc]
      simp
    · have hpb : (p.1 == k) = false := by simp [hp]
      have htc : containsKey t k = true := by
        simpa [containsKey, List.any_cons, hpb] using hc
      simp only [List.map_cons, hpb, Bool.false_eq_true, if_false, List.filter_cons]
      exact ih hnd2 htc

/-- On a duplicate-free cache, the entries under key `k` after
`mapSet m k v` are exactly the single binding `(k, v)`. -/
theorem filter_mapSet (m : Cache) (k : String) (v : VehicleState)
    (hnd : (keys m).Nodup) :
    (mapSet m k v).filter (fun p => p.1 == k) = [(k, v)] := by
  by_cases hc : containsKey m k
  · rw [mapSet, if_pos hc]
    exact filter_replace m k v hnd hc
  · have hcf : containsKey m k = false := by simpa using hc
    rw [mapSet, if_neg hc, List.filter_append,
      filter_eq_nil_of_not_contains m k hcf]
    simp

/-- Every key present before a `mapSet` is still present after it. -/
theorem mem_keys_mapSet (m : Cache) (k0 k : String) (v : VehicleState)
    (h : k0 ∈ keys m) : k0 ∈ keys (mapSet m k v) := by
  by_cases hc : containsKey m k
  · rw [mapSet, if_pos hc, keys_replace]
    exact h
  · rw [mapSet, if_neg hc]
    simp only [keys, List.map_append]
    exact List.mem_append_left _ h

/-- Membership in the swept cache: exactly the previously present entries
that are still fresh. -/
theorem mem_sweep_iff (m : Cache) (now timeout : ℤ) (e : String × VehicleState) :
    e ∈ (sweep m now timeout).1 ↔ e ∈ m ∧ now - e.2.lastUpdate ≤ timeout := by
  rcases hch : m.any (fun p => decide (now - p.2.lastUpdate > timeout)) with _ | _
  · have hall : ∀ p ∈ m, now - p.2.lastUpdate ≤ timeout := by
      intro p hp
      by_contra hgt
      have hx : m.any (fun p => decide (now - p.2.lastUpdate > timeout)) = true := by
        rw [List.any_eq_true]
        exact ⟨p, hp, decide_eq_true (not_le.mp hgt)⟩
      rw [hch] at hx
      exact Bool.false_ne_true hx
    simp only [sweep, hch, Bool.false_eq_true, if_false]
    exact ⟨fun h => ⟨h, hall e h⟩, fun h => h.1⟩
  · simp only [sweep, hch, if_true]
    simp [List.mem_filter, not_lt]

/-- The Boolean the sweep reports is true exactly when some entry is
stale. -/
theorem sweep_changed_iff (m : Cache) (now timeout : ℤ) :
    (sweep m now timeout).2 = true ↔
      ∃ e ∈ m, timeout < now - e.2.lastUpdate := by
  simp [sweep, List.any_eq_true]

/-- When every entry is fresh, the sweep keeps the old map and reports no
change. -/
theorem sweep_fresh (m : Cache) (now timeout : ℤ)
    (h : ∀ e ∈ m, now - e.2.lastUpdate ≤ timeout) :
    sweep m now timeout = (m, false) := by
  have hch : m.any (fun p => decide (now - p.2.lastUpdate > timeout)) = false := by
    rcases hx : m.any (fun p => decide (now - p.2.lastUpdate > timeout)) with _ | _
    · rfl
    · rw [List.any_eq_true] at hx
      obtain ⟨p, hp, hgt⟩ := hx
      exact absurd (h p hp) (not_le.mpr (of_decide_eq_true hgt))
  simp [sweep, hch]

/-- A concrete track value used in witnesses. -/
def exVehicle (k : String) (lu : ℤ) : VehicleState :=
  ⟨k, (35.8358, 129.2844), 0, 1, lu⟩

/-- The example detector configuration, matching the embedding
application's site data. -/
def exDetector : DetectorInfo := ⟨35.8358, 129.2844, 270⟩

/-- A concrete detection used in witnesses. -/
def exObj : RadarObj := ⟨7, 10, 5, none, 1⟩

/-- C5: upsert semantics of the message handler's `next.set(id, ...)` on a
duplicate-free cache: an unknown identifier is appended as exactly one new
entry; a known identifier has its whole value (position, heading, type)
replaced while the key sequence is unchanged; two upserts under the same
identifier leave exactly one entry under it, holding the second call's
values; and the cache grows by at most one entry per upsert. -/
theorem C5_upsert_semantics (m : Cache) (k : String) (v : VehicleState)
    (hnd : (keys m).Nodup) :
    (containsKey m k = false → mapSet m k v = m ++ [(k, v)]) ∧
    (containsKey m k = true →
      mapGet (mapSet m k v) k = some v ∧ keys (mapSet m k v) = keys m) ∧
    (∀ v1 v2 : VehicleState,
      (mapSet (mapSet m k v1) k v2).filter (fun p => p.1 == k) = [(k, v2)]) ∧
    (mapSet m k v).length ≤ m.length + 1 := by
  refine ⟨?_, ?_, ?_, ?_⟩
  · intro h
    rw [mapSet, if_neg (by simp [h])]
  · intro h
    rw [mapSet, if_pos h]
    exact ⟨mapGet_replace m k v h, keys_replace m k v⟩
  · intro v1 v2
    exact filter_mapSet (mapSet m k v1) k v2 (keys_mapSet_nodup m k v1 hnd)
  · by_cases hc : containsKey m k
    · rw [mapSet, if_pos hc, List.length_map]
      omega
    · rw [mapSet, if_neg hc, List.length_append]
      simp

/-- C5 witness: the upsert semantics instantiated on concrete caches: a
fresh insert appends, an overwrite of key `55-1` replaces the value, keeps
the keys, leaves exactly one entry under it, and never grows the cache by
more than one. -/
theorem C5_witness :
    (mapSet [] "55-1" (exVehicle "55-1" 0) = [] ++ [("55-1", exVehicle "55-1" 0)]) ∧
    mapGet (mapSet [("55-1", exVehicle "55-1" 0)] "55-1" (exVehicle "55-1" 5)) "55-1"
      = some (exVehicle "55-1" 5) ∧
    keys (mapSet [("55-1", exVehicle "55-1" 0)] "55-1" (exVehicle "55-1" 5))
      = keys [("55-1", exVehicle "55-1" 0)] ∧
    (mapSet (mapSet [("55-1", exVehicle "55-1" 0)] "55-1" (exVehicle "55-1" 5))
        "55-1" (exVehicle "55-1" 9)).filter (fun p => p.1 == "55-1")
      = [("55-1", exVehicle "55-1" 9)] ∧
    (mapSet [("55-1", exVehicle "55-1" 0)] "55-1" (exVehicle "55-1" 5)).length
      ≤ [("55-1", exVehicle "55-1" 0)].length + 1 := by
  have h0 := C5_upsert_semantics [] "55-1" (exVehicle "55-1" 0) (by simp [keys])
  have h1 := C5_upsert_semantics [("55-1", exVehicle "55-1" 0)] "55-1"
    (exVehicle "55-1" 5) (by simp [keys])
  have hc : containsKey [("55-1", exVehicle "55-1" 0)] "55-1" = true := rfl
  exact ⟨h0.1 rfl, (h1.2.1 hc).1, (h1.2.1 hc).2,
    h1.2.2.1 (exVehicle "55-1" 5) (exVehicle "55-1" 9), h1.2.2.2⟩

/-- C6: the sweep removes exactly the entries with
`now - lastUpdate > timeout`, keeps all others, reports whether a removal
occurred, and in particular drops an entry last updated at
`now - timeout - 1` while keeping one last updated at `now - timeout + 1`. -/
theorem C6_sweep_semantics (m : Cache) (now timeout : ℤ) :
    (∀ e : String × VehicleState,
      e ∈ (sweep m now timeout).1 ↔ e ∈ m ∧ now - e.2.lastUpdate ≤ timeout) ∧
    ((sweep m now timeout).2 = true ↔ ∃ e ∈ m, timeout < now - e.2.lastUpdate) ∧
    (∀ e ∈ m, e.2.lastUpdate = now - timeout - 1 → e ∉ (sweep m now timeout).1) ∧
    (∀ e ∈ m, e.2.lastUpdate = now - timeout + 1 → e ∈ (sweep m now timeout).1) := by
  refine ⟨mem_sweep_iff m now timeout, sweep_changed_iff m now timeout, ?_, ?_⟩
  · intro e he hlu h
    have hle := ((mem_sweep_iff m now timeout e).mp h).2
    omega
  · intro e he hlu
    exact (mem_sweep_iff m now timeout e).mpr ⟨he, by omega⟩

/-- C6 witness: at `now = 10000` with timeout 3000, the entry last updated
at 6999 (= now − timeout − 1) is removed and the entry last updated at 7001
(= now − timeout + 1) is kept. -/
theorem C6_witness :
    ("a", exVehicle "a" 6999) ∉
      (sweep [("a", exVehicle "a" 6999), ("b", exVehicle "b" 7001)] 10000 3000).1 ∧
    ("b", exVehicle "b" 7001) ∈
      (sweep [("a", exVehicle "a" 6999), ("b", exVehicle "b" 7001)] 10000 3000).1 := by
  refine ⟨(C6_sweep_semantics _ 10000 3000).2.2.1 _ (by simp) ?_,
    (C6_sweep_semantics _ 10000 3000).2.2.2 _ (by simp) ?_⟩
  · norm_num [exVehicle]
  · norm_num [exVehicle]

/-- C7: when no track is stale, the sweep returns the same cache, and
sweeping twice with the same `now` and timeout equals sweeping once. -/
theorem C7_sweep_idempotent (m : Cache) (now timeout : ℤ) :
    ((∀ e ∈ m, now - e.2.lastUpdate ≤ timeout) → (sweep m now timeout).1 = m) ∧
    (sweep (sweep m now timeout).1 now timeout).1 = (sweep m now timeout).1 := by
  constructor
  · intro h
    rw [sweep_fresh m now timeout h]
  · have h : ∀ e ∈ (sweep m now timeout).1, now - e.2.lastUpdate ≤ timeout :=
      fun e he => ((mem_sweep_iff m now timeout e).mp he).2
    rw [sweep_fresh _ now timeout h]

/-- C7 witness: a cache whose single entry is fresh at `now = 10000`,
timeout 3000, is returned unchanged, and a second sweep changes nothing. -/
theorem C7_witness :
    (sweep [("c", exVehicle "c" 9000)] 10000 3000).1 = [("c", exVehicle "c" 9000)] ∧
    (sweep (sweep [("c", exVehicle "c" 9000)] 10000 3000).1 10000 3000).1 =
      (sweep [("c", exVehicle "c" 9000)] 10000 3000).1 := by
  refine ⟨(C7_sweep_idempotent _ 10000 3000).1 ?_, (C7_sweep_idempotent _ 10000 3000).2⟩
  intro e he
  simp only [List.mem_singleton] at he
  subst he
  norm_num [exVehicle]

/-- C8: a raw payload on which JSON parsing fails is discarded: the handler
returns with the cache untouched, and being a total function it raises no
error (the source catches the parse exception and returns early). -/
theorem C8_malformed_json_discarded (parseJson : String → Option RadarMsg)
    (dm : List (ℤ × DetectorInfo)) (raw : String) (now : ℤ) (cache : Cache)
    (h : parseJson raw = none) :
    handleRaw parseJson dm raw now cache = cache := by
  simp [handleRaw, h]

/-- C8 witness: a parse function that rejects everything, applied to a
non-JSON payload over a nonempty cache, leaves the cache unchanged. -/
theorem C8_witness :
    handleRaw (fun _ => none) [] "not json" 3 [("55-1", exVehicle "55-1" 0)] =
      [("55-1", exVehicle "55-1" 0)] :=
  C8_malformed_json_discarded (fun _ => none) [] "not json" 3
    [("55-1", exVehicle "55-1" 0)] rfl

/-- C9: a parsed message whose `road_id` matches no configured detector is
ignored entirely: the handler returns the cache unchanged, never reaching
the per-detection transform loop. -/
theorem C9_unknown_detector_ignored (dm : List (ℤ × DetectorInfo))
    (msg : RadarMsg) (now : ℤ) (cache : Cache)
    (h : detectorGet dm msg.road_id = none) :
    handleRadarMsg dm msg now cache = cache := by
  simp [handleRadarMsg, h]

/-- C9 witness: a message for road 99 against a detector map that only
knows road 55 leaves the cache unchanged. -/
theorem C9_witness :
    handleRadarMsg [(55, exDetector)] ⟨99, [exObj]⟩ 3 [("55-1", exVehicle "55-1" 0)] =
      [("55-1", exVehicle "55-1" 0)] :=
  C9_unknown_detector_ignored [(55, exDetector)] ⟨99, [exObj]⟩ 3
    [("55-1", exVehicle "55-1" 0)] rfl

/-- Every key of the accumulator survives folding the per-object upserts. -/
theorem keys_foldl_handleObj (roadId : ℤ) (radar : DetectorInfo) (now : ℤ)
    (l : List RadarObj) (acc : Cache) (k0 : String) (h : k0 ∈ keys acc) :
    k0 ∈ keys (l.foldl (handleObj roadId radar now) acc) := by
  induction l generalizing acc with
  | nil => simpa using h
  | cons o t ih =>
    rw [List.foldl_cons]
    refine ih _ ?_
    show k0 ∈ keys (handleObj roadId radar now acc o)
    simp only [handleObj]
    exact mem_keys_mapSet acc k0 _ _ h

/-- C10: processing one observation message never deletes a track: every
identifier present in the cache before a message for a known detector is
handled is still present afterwards; only the sweep removes entries. -/
theorem C10_handler_preserves_tracks (dm : List (ℤ × DetectorInfo))
    (msg : RadarMsg) (now : ℤ) (cache : Cache) (radar : DetectorInfo)
    (hr : detectorGet dm msg.road_id = some radar) (k0 : String)
    (hk : k0 ∈ keys cache) :
    k0 ∈ keys (handleRadarMsg dm msg now cache) := by
  have hred : handleRadarMsg dm msg now cache =
      msg.data.foldl (handleObj msg.road_id radar now) cache := by
    unfold handleRadarMsg
    rw [hr]
  rw [hred]
  exact keys_foldl_handleObj msg.road_id radar now msg.data cache k0 hk

/-- C10 witness: handling a concrete message for the known road 55 keeps
the pre-existing track key `old` in the cache. -/
theorem C10_witness :
    "old" ∈ keys (handleRadarMsg [(55, exDetector)] ⟨55, [exObj]⟩ 3
      [("old", exVehicle "old" 0)]) :=
  C10_handler_preserves_tracks [(55, exDetector)] ⟨55, [exObj]⟩ 3
    [("old", exVehicle "old" 0)] exDetector rfl "old" (by simp [keys])

end RadarScene
